import Mathlib

/-!
Shallow embedding of the real-time session coordination layer of the
watch.with repository: the room coordinator (`src/server/socket/handlers/room.ts`)
and the voice signaling relay (the `registerVoiceHandlers` module).
Handlers are modelled as pure functions from (socket context, state, payload)
to (new state, list of emitted effects).  Payloads are taken post-validation
(the zod schemas only constrain the shape of already-typed fields).
-/

namespace WatchWith

/-- A member of a room (`User` in `src/types`): `joinedAt` is an epoch
timestamp. -/
structure User where
  id : String
  name : String
  isHost : Bool
  joinedAt : Nat
deriving Repr, DecidableEq

/-- Authoritative playback snapshot (`videoState` on `Room`).  Times are
rationals standing for the JS numbers; no arithmetic is performed on them
by the code modelled here. -/
structure VideoState where
  isPlaying : Bool
  currentTime : Rat
  duration : Rat
  lastUpdateTime : Nat
deriving Repr, DecidableEq

/-- A room object as stored in the external room store (`Room` in
`src/types`).  Subtitle tracks are opaque payloads round-tripped unchanged. -/
structure Room where
  id : String
  hostId : String
  hostName : String
  hostToken : String
  videoType : Option String
  videoState : VideoState
  users : List User
  subtitleTracks : List String
  activeSubtitleTrack : Option String
  createdAt : Nat
deriving Repr, DecidableEq

/-- The external room store (`redisService.rooms`), modelled as an
association list keyed by room id. -/
abbrev RoomStore := List (String × Room)

/-- Store lookup (`redisService.rooms.getRoom`): first value stored under
the key. -/
def getRoom : RoomStore → String → Option Room
  | [], _ => none
  | p :: rest, roomId => if p.1 = roomId then some p.2 else getRoom rest roomId

/-- Store update (`redisService.rooms.updateRoom`): replaces the value at
key `roomId`, keeping entry order. -/
def updateRoom : RoomStore → String → Room → RoomStore
  | [], _, _ => []
  | p :: rest, roomId, room =>
    if p.1 = roomId then (p.1, room) :: updateRoom rest roomId room
    else p :: updateRoom rest roomId room

/-- Store deletion (`redisService.rooms.deleteRoom`). -/
def deleteRoom : RoomStore → String → RoomStore
  | [], _ => []
  | p :: rest, roomId =>
    if p.1 = roomId then deleteRoom rest roomId else p :: deleteRoom rest roomId

/-- The external store's atomic append of a user to a room's `users` array
(`redisService.rooms.addUserToRoom`; the store itself is the external
collaborator of the spec, §2). -/
def addUserToRoom : RoomStore → String → User → RoomStore
  | [], _, _ => []
  | p :: rest, roomId, user =>
    if p.1 = roomId then (p.1, { p.2 with users := p.2.users ++ [user] }) :: addUserToRoom rest roomId user
    else p :: addUserToRoom rest roomId user

/-- Per-connection session data (`socket.data : SocketData`). -/
structure SocketData where
  userId : Option String
  userName : Option String
  roomId : Option String
deriving Repr, DecidableEq

/-- A connection: its session data plus the set of broadcast groups it has
joined (`socket.rooms`, as affected by `socket.join` / `socket.leave`). -/
structure SocketCtx where
  data : SocketData
  rooms : List String
deriving Repr, DecidableEq

/-- Events emitted by the handlers modelled here. -/
inductive Emit where
  | roomJoined (room : Room) (user : User)
  | roomError (msg : String)
  | userJoined (user : User)
  | userLeft (userId : String)
  | voiceError (msg : String)
  | voiceParticipants (userIds : List String)
  | voicePeerJoined (userId : String)
  | voicePeerLeft (userId : String)
  | voiceOffer (fromUserId targetUserId sdp : String)
  | voiceAnswer (fromUserId targetUserId sdp : String)
  | voiceIceCandidate (fromUserId targetUserId candidate : String)
  | videoPlayed (currentTime : Rat) (timestamp : Nat)
  | videoPaused (currentTime : Rat) (timestamp : Nat)
  | videoSeeked (currentTime : Rat) (timestamp : Nat)
deriving Repr, DecidableEq

/-- Where an emission goes: `socket.emit` (reply to sender) or
`socket.to(roomId).emit` (everyone in the room's group except the sender). -/
inductive Target where
  | sender
  | roomExceptSender (roomId : String)
deriving Repr, DecidableEq

abbrev Effect := Target × Emit

/-! ## Voice signaling relay (the `registerVoiceHandlers` module)

The module keeps `roomIdToVoiceParticipants : Map<string, Set<string>>`.
A JS `Set` holds no duplicates and iterates in insertion order, so it is
modelled as a `List String` to which elements are appended only when absent;
`Set.delete` is modelled by `List.filter`.  `Map` iteration order is
insertion order, so the map is an association list with new keys appended. -/

abbrev VoiceMap := List (String × List String)

/-- The map's `get`: the set stored under a room key, when present. -/
def voiceGet : VoiceMap → String → Option (List String)
  | [], _ => none
  | p :: rest, roomId => if p.1 = roomId then some p.2 else voiceGet rest roomId

/-- Participants of a room in the voice map, the absent key reading as the
empty set. -/
def voiceParticipantsOf (m : VoiceMap) (roomId : String) : List String :=
  (voiceGet m roomId).getD []

/-- Room keys present in the voice map. -/
def voiceKeys (m : VoiceMap) : List String := m.map (·.1)

/-- The map's `set` on an existing key: replace the stored participant set,
keeping entry order. -/
def setRoomSet : VoiceMap → String → List String → VoiceMap
  | [], _, _ => []
  | p :: rest, roomId, s =>
    if p.1 = roomId then (p.1, s) :: setRoomSet rest roomId s
    else p :: setRoomSet rest roomId s

/-- The module's `getOrCreateRoomSet`: returns the room's set, inserting an
empty entry into the map when the key is absent (`Map.set` appends new keys
at the end in insertion order). -/
def getOrCreateRoomSet (m : VoiceMap) (roomId : String) : List String × VoiceMap :=
  match voiceGet m roomId with
  | some s => (s, m)
  | none => ([], m ++ [(roomId, [])])

/-- The `voice-join` handler.  Requires a bound `userId`; rejects the join
with a voice-error when the set is full and the joiner is not already in it;
otherwise adds the joiner if absent, notifies the rest of the room with
`voice-peer-joined`, and replies the current participant list. -/
def voiceJoin (sock : SocketCtx) (m : VoiceMap) (roomId : String) :
    VoiceMap × List Effect :=
  match sock.data.userId with
  | none => (m, [(Target.sender, Emit.voiceError "Not authenticated")])
  | some uid =>
    let gc := getOrCreateRoomSet m roomId
    let ps := gc.1
    let m1 := gc.2
    if uid ∈ ps then
      (m1, [(Target.roomExceptSender roomId, Emit.voicePeerJoined uid),
            (Target.sender, Emit.voiceParticipants ps)])
    else if ps.length ≥ 5 then
      (m1, [(Target.sender, Emit.voiceError "Voice chat is limited to 5 participants.")])
    else
      let ps2 := ps ++ [uid]
      (setRoomSet m1 roomId ps2,
       [(Target.roomExceptSender roomId, Emit.voicePeerJoined uid),
        (Target.sender, Emit.voiceParticipants ps2)])

/-- The `voice-leave` handler.  Note that it calls `getOrCreateRoomSet`, so
a leave on an unknown room key inserts an empty entry; `voice-peer-left` is
broadcast only when the deletion actually removed the caller. -/
def voiceLeave (sock : SocketCtx) (m : VoiceMap) (roomId : String) :
    VoiceMap × List Effect :=
  match sock.data.userId with
  | none => (m, [])
  | some uid =>
    let gc := getOrCreateRoomSet m roomId
    let ps := gc.1
    let m1 := gc.2
    if uid ∈ ps then
      (setRoomSet m1 roomId (ps.filter (fun x => x ≠ uid)),
       [(Target.roomExceptSender roomId, Emit.voicePeerLeft uid)])
    else
      (m1, [])

/-- The module's `disconnect` listener: drops the session's user from the
voice set of its bound room, using a plain `Map.get` (no entry creation),
and broadcasts `voice-peer-left` only when the user was present. -/
def voiceDisconnect (sock : SocketCtx) (m : VoiceMap) : VoiceMap × List Effect :=
  match sock.data.roomId, sock.data.userId with
  | some roomId, some uid =>
    match voiceGet m roomId with
    | some ps =>
      if uid ∈ ps then
        (setRoomSet m roomId (ps.filter (fun x => x ≠ uid)),
         [(Target.roomExceptSender roomId, Emit.voicePeerLeft uid)])
      else
        (m, [])
    | none => (m, [])
  | _, _ => (m, [])

/-- The `voice-offer` relay: drops the message when no `userId` is bound,
otherwise stamps `fromUserId` and rebroadcasts the payload unchanged to the
rest of the room. -/
def voiceOffer (sock : SocketCtx) (roomId targetUserId sdp : String) : List Effect :=
  match sock.data.userId with
  | none => []
  | some uid => [(Target.roomExceptSender roomId, Emit.voiceOffer uid targetUserId sdp)]

/-- The `voice-answer` relay, identical in shape to `voiceOffer`. -/
def voiceAnswer (sock : SocketCtx) (roomId targetUserId sdp : String) : List Effect :=
  match sock.data.userId with
  | none => []
  | some uid => [(Target.roomExceptSender roomId, Emit.voiceAnswer uid targetUserId sdp)]

/-- The `voice-ice-candidate` relay, identical in shape to `voiceOffer`. -/
def voiceIceCandidate (sock : SocketCtx) (roomId targetUserId candidate : String) :
    List Effect :=
  match sock.data.userId with
  | none => []
  | some uid => [(Target.roomExceptSender roomId, Emit.voiceIceCandidate uid targetUserId candidate)]

/-! ## Room coordinator (`src/server/socket/handlers/room.ts`) -/

/-- Result of a room-coordinator handler: the store after the call, the
caller's connection after the call, and the emitted effects in order. -/
structure HandlerResult where
  store : RoomStore
  sock : SocketCtx
  effects : List Effect
deriving Repr, DecidableEq

/-- Bind the session to a user and join the room's broadcast group
(`socket.data.userId/userName/roomId := ...; await socket.join(roomId)`). -/
def bindAndJoin (sock : SocketCtx) (userId userName roomId : String) : SocketCtx :=
  { data := { userId := some userId, userName := some userName, roomId := some roomId },
    rooms := if roomId ∈ sock.rooms then sock.rooms else sock.rooms ++ [roomId] }

/-- Leave the room's broadcast group (`await socket.leave(roomId)`). -/
def leaveGroup (sock : SocketCtx) (roomId : String) : SocketCtx :=
  { sock with rooms := sock.rooms.filter (fun r => r ≠ roomId) }

/-- The exported `handleLeaveRoom(socket, roomId, isManualLeave)`.  Silent
no-op unless the session has a bound `userId`, the room exists, and the
bound user is a member.  When the departing member was a host and no host
remains, the room is deleted and the rest of the room is told it is
closing; when the room becomes empty it is deleted silently; otherwise the
trimmed user list is persisted and `user-left` broadcast.  `isManualLeave`
only affects a log line and is omitted.  The trailing `socket.on` listener
registration inside the source function performs no state change and no
emission at leave time, so it has no footprint here. -/
def handleLeaveRoom (sock : SocketCtx) (store : RoomStore) (roomId : String) :
    HandlerResult :=
  match sock.data.userId with
  | none => ⟨store, sock, []⟩
  | some uid =>
    match getRoom store roomId with
    | none => ⟨store, sock, []⟩
    | some room =>
      match room.users.find? (fun u => u.id = uid) with
      | none => ⟨store, sock, []⟩
      | some leavingUser =>
        let updatedUsers := room.users.filter (fun u => u.id ≠ uid)
        let remainingHosts := updatedUsers.filter (fun u => u.isHost)
        if leavingUser.isHost ∧ remainingHosts = [] then
          ⟨deleteRoom store roomId, leaveGroup sock roomId,
           [(Target.roomExceptSender roomId,
             Emit.roomError "All hosts have left the room. Redirecting to home page...")]⟩
        else if updatedUsers = [] then
          ⟨deleteRoom store roomId, leaveGroup sock roomId, []⟩
        else
          ⟨updateRoom store roomId { room with users := updatedUsers },
           leaveGroup sock roomId,
           [(Target.roomExceptSender roomId, Emit.userLeft uid)]⟩

/-- Payload of `join-room` after `JoinRoomDataSchema` validation. -/
structure JoinRoomData where
  roomId : String
  userName : String
  hostToken : Option String
deriving Repr, DecidableEq

/-- Whitespace test used by `jsTrim`. -/
def isTrimmedSpace (c : Char) : Bool := c = ' ' ∨ c = '\t' ∨ c = '\n' ∨ c = '\r'

/-- The JS `String.prototype.trim()` used by the duplicate-socket guard
(`data?.userName?.trim()`): strips leading and trailing whitespace. -/
def jsTrim (s : String) : String :=
  ⟨((s.data.dropWhile isTrimmedSpace).reverse.dropWhile isTrimmedSpace).reverse⟩

/-- Tail of the `join-room` handler once a fresh user is to be created
(room.ts lines 171-199): build the user, update `hostId` when the joiner is
the rejoining host, append the user through the store's atomic add, re-read
the room (`updatedRoom!`, non-null asserted in the source, here defaulted),
bind the session, and emit `room-joined` to the caller plus `user-joined`
to the rest of the room. -/
def joinRoomCreate (sock : SocketCtx) (store : RoomStore) (d : JoinRoomData)
    (room : Room) (newUserId : String) (now : Nat) (isRoomHost : Bool) :
    HandlerResult :=
  let user : User := { id := newUserId, name := d.userName, isHost := isRoomHost, joinedAt := now }
  let store1 := if isRoomHost then updateRoom store d.roomId { room with hostId := newUserId } else store
  let store2 := addUserToRoom store1 d.roomId user
  let updatedRoom := (getRoom store2 d.roomId).getD room
  ⟨store2, bindAndJoin sock newUserId d.userName d.roomId,
   [(Target.sender, Emit.roomJoined updatedRoom user),
    (Target.roomExceptSender d.roomId, Emit.userJoined user)]⟩

/-- The `join-room` handler.  `newUserId` is the `uuidv4()` the handler
would draw if it creates a user, `now` the timestamp.  The first branch is
the duplicate-socket guard (`socket.rooms.has(data.roomId)`), which replies
success for a known rejoining user and otherwise silently ignores the
duplicate attempt.  The main path handles: missing room; existing user of
the same name (host re-attach under token check, or name-taken conflict);
a fresh name claiming the reserved host name under token check; and finally
user creation, persistence and broadcasts. -/
def joinRoom (sock : SocketCtx) (store : RoomStore) (d : JoinRoomData)
    (newUserId : String) (now : Nat) : HandlerResult :=
  if d.roomId ∈ sock.rooms then
    match getRoom store d.roomId with
    | some room =>
      match room.users.find? (fun u => u.name = jsTrim d.userName) with
      | some existingUser =>
        if existingUser.isHost ∧ d.hostToken = some room.hostToken then
          ⟨store, sock, [(Target.sender, Emit.roomJoined room existingUser)]⟩
        else if ¬ existingUser.isHost then
          ⟨store, sock, [(Target.sender, Emit.roomJoined room existingUser)]⟩
        else
          ⟨store, sock, []⟩
      | none => ⟨store, sock, []⟩
    | none => ⟨store, sock, []⟩
  else
    match getRoom store d.roomId with
    | none => ⟨store, sock, [(Target.sender, Emit.roomError "Room not found")]⟩
    | some room =>
      match room.users.find? (fun u => u.name = d.userName) with
      | some existingUser =>
        if existingUser.isHost then
          if d.hostToken = none ∨ d.hostToken ≠ some room.hostToken then
            ⟨store, sock,
             [(Target.sender,
               Emit.roomError "Invalid host credentials. Only the room creator can join as host.")]⟩
          else
            ⟨store, bindAndJoin sock existingUser.id existingUser.name d.roomId,
             [(Target.sender, Emit.roomJoined room existingUser)]⟩
        else
          ⟨store, sock,
           [(Target.sender,
             Emit.roomError ("The name " ++ d.userName ++ " is already taken in this room. Please choose a different name."))]⟩
      | none =>
        let isClaimingHost : Bool := room.hostName = d.userName
        if isClaimingHost then
          if d.hostToken.isSome ∧ d.hostToken = some room.hostToken then
            joinRoomCreate sock store d room newUserId now true
          else
            ⟨store, sock,
             [(Target.sender,
               Emit.roomError "Invalid host credentials. Only the room creator can join as host.")]⟩
        else
          if room.hostName = d.userName then
            ⟨store, sock,
             [(Target.sender,
               Emit.roomError ("The name " ++ d.userName ++ " is reserved for the room host. Please choose a different name."))]⟩
          else
            joinRoomCreate sock store d room newUserId now false

/-! ## Playback sync engine

The handler file `src/server/socket/handlers/video.ts` is registered by
`src/server/socket/index.ts` but its source is not part of the material at
hand; the handlers below are modelled from the spec (§4.2 and §8). -/

/-- Modelled from the spec: the `play-video` handler of the missing
`src/server/socket/handlers/video.ts`.  Per §4.2, the server must reject
silently or with an error when the sender is not a host of the room, and
otherwise stamp `timestamp = now()`, recompute `room.videoState`, persist,
and broadcast `video-played {currentTime, timestamp}` to every other room
member. -/
def playVideo (sock : SocketCtx) (store : RoomStore) (roomId : String)
    (currentTime : Rat) (now : Nat) : RoomStore × List Effect :=
  match sock.data.userId with
  | none => (store, [])
  | some uid =>
    match getRoom store roomId with
    | none => (store, [])
    | some room =>
      match room.users.find? (fun u => u.id = uid) with
      | none => (store, [])
      | some user =>
        if user.isHost then
          (updateRoom store roomId
            { room with videoState :=
                { isPlaying := true, currentTime := currentTime,
                  duration := room.videoState.duration, lastUpdateTime := now } },
           [(Target.roomExceptSender roomId, Emit.videoPlayed currentTime now)])
        else
          (store, [])

/-- Modelled from the spec: the `pause-video` handler of the missing
`src/server/socket/handlers/video.ts`, shaped like `playVideo` (§4.2). -/
def pauseVideo (sock : SocketCtx) (store : RoomStore) (roomId : String)
    (currentTime : Rat) (now : Nat) : RoomStore × List Effect :=
  match sock.data.userId with
  | none => (store, [])
  | some uid =>
    match getRoom store roomId with
    | none => (store, [])
    | some room =>
      match room.users.find? (fun u => u.id = uid) with
      | none => (store, [])
      | some user =>
        if user.isHost then
          (updateRoom store roomId
            { room with videoState :=
                { isPlaying := false, currentTime := currentTime,
                  duration := room.videoState.duration, lastUpdateTime := now } },
           [(Target.roomExceptSender roomId, Emit.videoPaused currentTime now)])
        else
          (store, [])

/-- Modelled from the spec: the `seek-video` handler of the missing
`src/server/socket/handlers/video.ts`, shaped like `playVideo` (§4.2). -/
def seekVideo (sock : SocketCtx) (store : RoomStore) (roomId : String)
    (currentTime : Rat) (now : Nat) : RoomStore × List Effect :=
  match sock.data.userId with
  | none => (store, [])
  | some uid =>
    match getRoom store roomId with
    | none => (store, [])
    | some room =>
      match room.users.find? (fun u => u.id = uid) with
      | none => (store, [])
      | some user =>
        if user.isHost then
          (updateRoom store roomId
            { room with videoState :=
                { isPlaying := room.videoState.isPlaying, currentTime := currentTime,
                  duration := room.videoState.duration, lastUpdateTime := now } },
           [(Target.roomExceptSender roomId, Emit.videoSeeked currentTime now)])
        else
          (store, [])

/-- Whether the sender's bound user resolves to a host of the room, the way
the handlers do it: a bound `userId`, an existing room, and the first member
carrying that id having `isHost = true`. -/
def senderIsHostOf (sock : SocketCtx) (store : RoomStore) (roomId : String) : Bool :=
  match sock.data.userId with
  | none => false
  | some uid =>
    match getRoom store roomId with
    | none => false
    | some room =>
      match room.users.find? (fun u => u.id = uid) with
      | none => false
      | some user => user.isHost

end WatchWith

namespace WatchWith

/-! ## Concrete fixtures used to instantiate the theorems -/

/-- A connection bound to user `u1` in room `ROOM01`. -/
def sockU1 : SocketCtx :=
  { data := { userId := some "u1", userName := some "Alice", roomId := some "ROOM01" },
    rooms := ["ROOM01"] }

/-- A connection bound to user `u2` in room `ROOM01`. -/
def sockU2 : SocketCtx :=
  { data := { userId := some "u2", userName := some "Bob", roomId := some "ROOM01" },
    rooms := ["ROOM01"] }

/-- A connection bound to user `u6` in room `ROOM01`. -/
def sockU6 : SocketCtx :=
  { data := { userId := some "u6", userName := some "Frank", roomId := some "ROOM01" },
    rooms := ["ROOM01"] }

/-- A fresh connection: nothing bound, no groups joined. -/
def sockFresh : SocketCtx :=
  { data := { userId := none, userName := none, roomId := none }, rooms := [] }

/-- A voice map whose `ROOM01` set is at the cap of 5. -/
def mFull : VoiceMap := [("ROOM01", ["a", "b", "c", "d", "e"])]

def vStateInit : VideoState :=
  { isPlaying := false, currentTime := 0, duration := 0, lastUpdateTime := 1 }

/-- Host user of the fixture room. -/
def userAlice : User := { id := "u1", name := "Alice", isHost := true, joinedAt := 0 }

/-- Guest user of the fixture room. -/
def userBob : User := { id := "u2", name := "Bob", isHost := false, joinedAt := 1 }

/-- Fixture room with host Alice and guest Bob. -/
def roomAB : Room :=
  { id := "ROOM01", hostId := "u1", hostName := "Alice", hostToken := "tok-1",
    videoType := none, videoState := vStateInit, users := [userAlice, userBob],
    subtitleTracks := [], activeSubtitleTrack := none, createdAt := 0 }

/-- Store holding just `roomAB`. -/
def storeAB : RoomStore := [("ROOM01", roomAB)]

end WatchWith

namespace WatchWith

/-! ## Helper lemmas about the voice map -/

theorem voiceGet_append_ne (m : VoiceMap) (roomId r : String) (hr : r ≠ roomId) :
    voiceGet (m ++ [(roomId, [])]) r = voiceGet m r := by
  induction m with
  | nil =>
    have hr' : ¬ roomId = r := fun hh => hr hh.symm
    simp [voiceGet, hr']
  | cons a l ih => by_cases ha : a.1 = r <;> simp [voiceGet, ha, ih]

theorem voiceGet_append_self (m : VoiceMap) (roomId : String) (h : voiceGet m roomId = none) :
    voiceGet (m ++ [(roomId, [])]) roomId = some [] := by
  induction m with
  | nil => simp [voiceGet]
  | cons a l ih =>
    by_cases ha : a.1 = roomId
    · simp [voiceGet, ha] at h
    · simp [voiceGet, ha] at h ⊢
      exact ih h

theorem getOrCreate_fst (m : VoiceMap) (roomId : String) :
    (getOrCreateRoomSet m roomId).1 = voiceParticipantsOf m roomId := by
  unfold getOrCreateRoomSet voiceParticipantsOf
  cases h : voiceGet m roomId <;> simp [h]

theorem voiceParticipantsOf_getOrCreate (m : VoiceMap) (roomId r : String) :
    voiceParticipantsOf (getOrCreateRoomSet m roomId).2 r = voiceParticipantsOf m r := by
  unfold getOrCreateRoomSet
  cases h : voiceGet m roomId with
  | some s => simp
  | none =>
    simp only [voiceParticipantsOf]
    by_cases hr : r = roomId
    · subst hr
      rw [voiceGet_append_self m r h, h]
      simp
    · rw [voiceGet_append_ne m roomId r hr]

theorem getOrCreate_key_isSome (m : VoiceMap) (roomId : String) :
    (voiceGet (getOrCreateRoomSet m roomId).2 roomId).isSome := by
  unfold getOrCreateRoomSet
  cases h : voiceGet m roomId with
  | some s => simp [h]
  | none => simp [voiceGet_append_self m roomId h]

theorem voiceGet_setRoomSet_self (m : VoiceMap) (roomId : String) (s : List String)
    (h : (voiceGet m roomId).isSome) :
    voiceGet (setRoomSet m roomId s) roomId = some s := by
  induction m with
  | nil => simp [voiceGet] at h
  | cons a l ih =>
    by_cases ha : a.1 = roomId
    · simp [voiceGet, setRoomSet, ha]
    · simp [voiceGet, setRoomSet, ha] at h ⊢
      exact ih h

theorem voiceGet_setRoomSet_ne (m : VoiceMap) (roomId r : String) (s : List String)
    (h : r ≠ roomId) :
    voiceGet (setRoomSet m roomId s) r = voiceGet m r := by
  induction m with
  | nil => simp [setRoomSet]
  | cons a l ih =>
    have hr' : ¬ roomId = r := fun hh => h hh.symm
    by_cases hb : a.1 = roomId
    · have ha' : ¬ a.1 = r := by rw [hb]; exact hr'
      simp [voiceGet, setRoomSet, hb, ha', hr', ih]
    · by_cases ha : a.1 = r <;> simp [voiceGet, setRoomSet, hb, ha, h, ih]

theorem voiceParticipantsOf_setRoomSet_self (m : VoiceMap) (roomId : String) (s : List String)
    (h : (voiceGet m roomId).isSome) :
    voiceParticipantsOf (setRoomSet m roomId s) roomId = s := by
  unfold voiceParticipantsOf
  rw [voiceGet_setRoomSet_self m roomId s h]
  rfl

theorem voiceParticipantsOf_setRoomSet_ne (m : VoiceMap) (roomId r : String) (s : List String)
    (h : r ≠ roomId) :
    voiceParticipantsOf (setRoomSet m roomId s) r = voiceParticipantsOf m r := by
  unfold voiceParticipantsOf
  rw [voiceGet_setRoomSet_ne m roomId r s h]

theorem voiceKeys_setRoomSet (m : VoiceMap) (roomId : String) (s : List String) :
    voiceKeys (setRoomSet m roomId s) = voiceKeys m := by
  induction m with
  | nil => rfl
  | cons a l ih =>
    by_cases ha : a.1 = roomId <;> simp [setRoomSet, voiceKeys, ha] at ih ⊢ <;> exact ih

theorem voiceKeys_getOrCreate (m : VoiceMap) (roomId : String) :
    voiceKeys (getOrCreateRoomSet m roomId).2 = voiceKeys m ∨
      voiceKeys (getOrCreateRoomSet m roomId).2 = voiceKeys m ++ [roomId] := by
  unfold getOrCreateRoomSet
  cases h : voiceGet m roomId with
  | some s => left; rfl
  | none => right; simp [voiceKeys]

theorem voiceGet_isSome_of_mem (m : VoiceMap) (roomId uid : String)
    (h : uid ∈ voiceParticipantsOf m roomId) : (voiceGet m roomId).isSome := by
  unfold voiceParticipantsOf at h
  cases hg : voiceGet m roomId with
  | some s => simp
  | none => rw [hg] at h; simp at h

theorem getOrCreate_eq_self_of_isSome (m : VoiceMap) (roomId : String)
    (h : (voiceGet m roomId).isSome) : (getOrCreateRoomSet m roomId).2 = m := by
  unfold getOrCreateRoomSet
  cases hg : voiceGet m roomId with
  | some s => rfl
  | none => rw [hg] at h; simp at h

theorem mem_voiceKeys_iff (m : VoiceMap) (r : String) :
    r ∈ voiceKeys m ↔ (voiceGet m r).isSome := by
  induction m with
  | nil => simp [voiceKeys, voiceGet]
  | cons a l ih =>
    have hstep : r ∈ voiceKeys (a :: l) ↔ (r = a.1 ∨ r ∈ voiceKeys l) := by
      simp [voiceKeys]
    rw [hstep, ih]
    by_cases ha : a.1 = r
    · simp [voiceGet, ha]
    · have hra : ¬ r = a.1 := fun hh => ha hh.symm
      simp [voiceGet, ha, hra]

/-- Characterization of the participant sets after a `voice-join`. -/
theorem voiceParticipantsOf_voiceJoin (sock : SocketCtx) (m : VoiceMap) (roomId uid : String)
    (h : sock.data.userId = some uid) (r : String) :
    voiceParticipantsOf (voiceJoin sock m roomId).1 r =
      if r = roomId ∧ uid ∉ voiceParticipantsOf m roomId ∧
          (voiceParticipantsOf m roomId).length < 5 then
        voiceParticipantsOf m roomId ++ [uid]
      else voiceParticipantsOf m r := by
  have hfst := getOrCreate_fst m roomId
  simp only [voiceJoin, h]
  simp only [hfst]
  by_cases hmem : uid ∈ voiceParticipantsOf m roomId
  · rw [if_pos hmem, if_neg (fun hc => hc.2.1 hmem)]
    exact voiceParticipantsOf_getOrCreate m roomId r
  · rw [if_neg hmem]
    by_cases hlen : (voiceParticipantsOf m roomId).length ≥ 5
    · rw [if_pos hlen, if_neg (fun hc => absurd hc.2.2 (by omega))]
      exact voiceParticipantsOf_getOrCreate m roomId r
    · rw [if_neg hlen]
      by_cases hr : r = roomId
      · subst hr
        rw [if_pos ⟨rfl, hmem, by omega⟩]
        exact voiceParticipantsOf_setRoomSet_self _ _ _ (getOrCreate_key_isSome m r)
      · rw [if_neg (fun hc => hr hc.1)]
        rw [voiceParticipantsOf_setRoomSet_ne _ _ _ _ hr]
        exact voiceParticipantsOf_getOrCreate m roomId r

end WatchWith

namespace WatchWith

theorem voiceGet_isSome_of_length (m : VoiceMap) (roomId : String)
    (h : 1 ≤ (voiceParticipantsOf m roomId).length) : (voiceGet m roomId).isSome := by
  unfold voiceParticipantsOf at h
  cases hg : voiceGet m roomId with
  | some s => simp
  | none => rw [hg] at h; simp at h

theorem filter_ne_of_not_mem (l : List String) (uid : String) (h : uid ∉ l) :
    l.filter (fun x => x ≠ uid) = l := by
  apply List.filter_eq_self.mpr
  intro a ha
  have hne : a ≠ uid := fun he => h (he ▸ ha)
  simpa using hne

theorem not_mem_filter_ne (l : List String) (uid : String) :
    uid ∉ l.filter (fun x => x ≠ uid) := by
  intro h
  simpa using (List.mem_filter.mp h).2

/-- Behaviour of `voice-leave` for an authenticated session: the caller is
removed from the room's set, other rooms are untouched, and
`voice-peer-left` goes out exactly when the caller was present. -/
theorem voiceLeave_chars (sock : SocketCtx) (m : VoiceMap) (roomId uid : String)
    (h : sock.data.userId = some uid) :
    (voiceLeave sock m roomId).2 =
      (if uid ∈ voiceParticipantsOf m roomId then
        [(Target.roomExceptSender roomId, Emit.voicePeerLeft uid)]
      else []) ∧
    voiceParticipantsOf (voiceLeave sock m roomId).1 roomId =
      (voiceParticipantsOf m roomId).filter (fun x => x ≠ uid) ∧
    ∀ r, r ≠ roomId →
      voiceParticipantsOf (voiceLeave sock m roomId).1 r = voiceParticipantsOf m r := by
  simp only [voiceLeave, h, getOrCreate_fst]
  by_cases hmem : uid ∈ voiceParticipantsOf m roomId
  · rw [if_pos hmem]
    refine ⟨by rw [if_pos hmem], ?_, ?_⟩
    · exact voiceParticipantsOf_setRoomSet_self _ _ _ (getOrCreate_key_isSome m roomId)
    · intro r hr
      rw [voiceParticipantsOf_setRoomSet_ne _ _ _ _ hr]
      exact voiceParticipantsOf_getOrCreate m roomId r
  · rw [if_neg hmem]
    refine ⟨by rw [if_neg hmem], ?_, ?_⟩
    · rw [voiceParticipantsOf_getOrCreate, filter_ne_of_not_mem _ _ hmem]
    · intro r hr
      exact voiceParticipantsOf_getOrCreate m roomId r

/-- Behaviour of the disconnect-driven voice cleanup, mirroring
`voiceLeave_chars` for a session bound to a room. -/
theorem voiceDisconnect_chars (sock : SocketCtx) (m : VoiceMap) (roomId uid : String)
    (h : sock.data.userId = some uid) (hr : sock.data.roomId = some roomId) :
    (voiceDisconnect sock m).2 =
      (if uid ∈ voiceParticipantsOf m roomId then
        [(Target.roomExceptSender roomId, Emit.voicePeerLeft uid)]
      else []) ∧
    voiceParticipantsOf (voiceDisconnect sock m).1 roomId =
      (voiceParticipantsOf m roomId).filter (fun x => x ≠ uid) := by
  cases hg : voiceGet m roomId with
  | none =>
    have hps : voiceParticipantsOf m roomId = [] := by
      unfold voiceParticipantsOf; rw [hg]; rfl
    simp [voiceDisconnect, h, hr, hg, hps]
  | some ps =>
    have hps : voiceParticipantsOf m roomId = ps := by
      unfold voiceParticipantsOf; rw [hg]; rfl
    by_cases hmem : uid ∈ ps
    · simp only [voiceDisconnect, h, hr, hg, hps, if_pos hmem]
      refine ⟨trivial, ?_⟩
      exact voiceParticipantsOf_setRoomSet_self _ _ _ (by rw [hg]; rfl)
    · simp only [voiceDisconnect, h, hr, hg, hps, if_neg hmem]
      exact ⟨trivial, (filter_ne_of_not_mem _ _ hmem).symm⟩

end WatchWith

namespace WatchWith

/-- Claim C2: a voice-join by an authenticated user not yet in the room's voice
set is rejected with the VoiceFull voice-error and leaves the map unchanged
whenever the set already has 5 or more members; and every voice operation
keeps every room's participant set at 5 members or fewer. -/
theorem voiceJoin_cap_enforced :
    (∀ (sock : SocketCtx) (m : VoiceMap) (roomId uid : String),
      sock.data.userId = some uid →
      uid ∉ voiceParticipantsOf m roomId →
      5 ≤ (voiceParticipantsOf m roomId).length →
      voiceJoin sock m roomId =
        (m, [(Target.sender, Emit.voiceError "Voice chat is limited to 5 participants.")])) ∧
    (∀ (sock : SocketCtx) (m : VoiceMap) (roomId : String),
      (∀ r, (voiceParticipantsOf m r).length ≤ 5) →
      ∀ r, (voiceParticipantsOf (voiceJoin sock m roomId).1 r).length ≤ 5) ∧
    (∀ (sock : SocketCtx) (m : VoiceMap) (roomId : String),
      (∀ r, (voiceParticipantsOf m r).length ≤ 5) →
      ∀ r, (voiceParticipantsOf (voiceLeave sock m roomId).1 r).length ≤ 5) ∧
    (∀ (sock : SocketCtx) (m : VoiceMap),
      (∀ r, (voiceParticipantsOf m r).length ≤ 5) →
      ∀ r, (voiceParticipantsOf (voiceDisconnect sock m).1 r).length ≤ 5) := by
  refine ⟨?_, ?_, ?_, ?_⟩
  · intro sock m roomId uid h hmem hlen
    have hsome : (voiceGet m roomId).isSome := voiceGet_isSome_of_length m roomId (by omega)
    have hself := getOrCreate_eq_self_of_isSome m roomId hsome
    simp only [voiceJoin, h, getOrCreate_fst, hself]
    rw [if_neg hmem, if_pos hlen]
  · intro sock m roomId hb r
    cases hu : sock.data.userId with
    | none => simp only [voiceJoin, hu]; exact hb r
    | some uid =>
      rw [voiceParticipantsOf_voiceJoin sock m roomId uid hu r]
      by_cases hc : r = roomId ∧ uid ∉ voiceParticipantsOf m roomId ∧
          (voiceParticipantsOf m roomId).length < 5
      · rw [if_pos hc]
        have := hc.2.2
        simp only [List.length_append, List.length_cons, List.length_nil]
        omega
      · rw [if_neg hc]; exact hb r
  · intro sock m roomId hb r
    cases hu : sock.data.userId with
    | none => simp only [voiceLeave, hu]; exact hb r
    | some uid =>
      obtain ⟨-, hs, ho⟩ := voiceLeave_chars sock m roomId uid hu
      by_cases hr : r = roomId
      · subst hr
        rw [hs]
        calc ((voiceParticipantsOf m r).filter (fun x => x ≠ uid)).length
            ≤ (voiceParticipantsOf m r).length := List.length_filter_le _ _
          _ ≤ 5 := hb r
      · rw [ho r hr]; exact hb r
  · intro sock m hb r
    cases hu : sock.data.roomId with
    | none => simp only [voiceDisconnect, hu]; exact hb r
    | some roomId =>
      cases hid : sock.data.userId with
      | none => simp only [voiceDisconnect, hu, hid]; exact hb r
      | some uid =>
        cases hg : voiceGet m roomId with
        | none => simp only [voiceDisconnect, hu, hid, hg]; exact hb r
        | some ps =>
          by_cases hmem : uid ∈ ps
          · simp only [voiceDisconnect, hu, hid, hg, if_pos hmem]
            by_cases hr : r = roomId
            · subst hr
              rw [voiceParticipantsOf_setRoomSet_self m r _ (by rw [hg]; rfl)]
              have hps : voiceParticipantsOf m r = ps := by
                unfold voiceParticipantsOf; rw [hg]; rfl
              calc (ps.filter (fun x => x ≠ uid)).length
                  ≤ ps.length := List.length_filter_le _ _
                _ = (voiceParticipantsOf m r).length := by rw [hps]
                _ ≤ 5 := hb r
            · rw [voiceParticipantsOf_setRoomSet_ne m roomId r _ hr]; exact hb r
          · simp only [voiceDisconnect, hu, hid, hg, if_neg hmem]; exact hb r

/-- Claim C2 witness: the 6th joiner `u6` is rejected on a full room and the cap
is preserved. -/
theorem voiceJoin_cap_enforced_witness :
    voiceJoin sockU6 mFull "ROOM01" =
      (mFull, [(Target.sender, Emit.voiceError "Voice chat is limited to 5 participants.")]) ∧
    ∀ r, (voiceParticipantsOf (voiceJoin sockU6 mFull "ROOM01").1 r).length ≤ 5 := by
  have hbound : ∀ r, (voiceParticipantsOf mFull r).length ≤ 5 := by
    intro r
    by_cases hr : ("ROOM01" : String) = r <;>
      simp [mFull, voiceParticipantsOf, voiceGet, hr]
  exact ⟨voiceJoin_cap_enforced.1 sockU6 mFull "ROOM01" "u6" rfl (by decide) (by decide),
         voiceJoin_cap_enforced.2.1 sockU6 mFull "ROOM01" hbound⟩

/-- Claim C4: each of the three signaling relays, for a connection bound to user
`uid`, emits to the rest of the room exactly the payload it received with
`fromUserId` stamped to `uid`, the SDP or candidate string unchanged. -/
theorem voiceRelay_stamps_and_forwards :
    ∀ (sock : SocketCtx) (roomId targetUserId sdp candidate uid : String),
      sock.data.userId = some uid →
      voiceOffer sock roomId targetUserId sdp =
        [(Target.roomExceptSender roomId, Emit.voiceOffer uid targetUserId sdp)] ∧
      voiceAnswer sock roomId targetUserId sdp =
        [(Target.roomExceptSender roomId, Emit.voiceAnswer uid targetUserId sdp)] ∧
      voiceIceCandidate sock roomId targetUserId candidate =
        [(Target.roomExceptSender roomId, Emit.voiceIceCandidate uid targetUserId candidate)] := by
  intro sock roomId targetUserId sdp candidate uid h
  simp [voiceOffer, voiceAnswer, voiceIceCandidate, h]

/-- Claim C4 witness: the relay instantiated for `u1` offering to `u2`. -/
theorem voiceRelay_stamps_and_forwards_witness :
    voiceOffer sockU1 "ROOM01" "u2" "sdp-blob" =
      [(Target.roomExceptSender "ROOM01", Emit.voiceOffer "u1" "u2" "sdp-blob")] ∧
    voiceAnswer sockU1 "ROOM01" "u2" "sdp-blob" =
      [(Target.roomExceptSender "ROOM01", Emit.voiceAnswer "u1" "u2" "sdp-blob")] ∧
    voiceIceCandidate sockU1 "ROOM01" "u2" "cand-blob" =
      [(Target.roomExceptSender "ROOM01", Emit.voiceIceCandidate "u1" "u2" "cand-blob")] :=
  voiceRelay_stamps_and_forwards sockU1 "ROOM01" "u2" "sdp-blob" "cand-blob" "u1" rfl

/-- Claim C6 counterexample: a repeated voice-join by `u1`, already the sole
member of the room's voice set, leaves the map unchanged but DOES re-emit
the voice-peer-joined broadcast to the rest of the room, contradicting the
claim that no additional broadcast is triggered. -/
theorem voiceJoin_repeat_rebroadcasts :
    (voiceJoin sockU1 [("ROOM01", ["u1"])] "ROOM01").1 = [("ROOM01", ["u1"])] ∧
    (Target.roomExceptSender "ROOM01", Emit.voicePeerJoined "u1") ∈
      (voiceJoin sockU1 [("ROOM01", ["u1"])] "ROOM01").2 := by decide

/-- Claim C6 amended: a voice-join for a user already in the room's voice set
mutates nothing and replies with the current participant list including the
joiner, but the voice-peer-joined broadcast to the rest of the room is
re-emitted all the same. -/
theorem voiceJoin_already_in_set :
    ∀ (sock : SocketCtx) (m : VoiceMap) (roomId uid : String),
      sock.data.userId = some uid →
      uid ∈ voiceParticipantsOf m roomId →
      voiceJoin sock m roomId =
        (m, [(Target.roomExceptSender roomId, Emit.voicePeerJoined uid),
             (Target.sender, Emit.voiceParticipants (voiceParticipantsOf m roomId))]) := by
  intro sock m roomId uid h hmem
  have hsome := voiceGet_isSome_of_mem m roomId uid hmem
  simp only [voiceJoin, h, getOrCreate_fst, getOrCreate_eq_self_of_isSome m roomId hsome]
  rw [if_pos hmem]

/-- Claim C6 amended witness: the repeated join of `u1` instantiated. -/
theorem voiceJoin_already_in_set_witness :
    voiceJoin sockU1 [("ROOM01", ["u1"])] "ROOM01" =
      ([("ROOM01", ["u1"])],
       [(Target.roomExceptSender "ROOM01", Emit.voicePeerJoined "u1"),
        (Target.sender, Emit.voiceParticipants ["u1"])]) := by
  have h := voiceJoin_already_in_set sockU1 [("ROOM01", ["u1"])] "ROOM01" "u1" rfl (by decide)
  simpa using h

end WatchWith

namespace WatchWith

/-- Claim C7: voice-leave and the disconnect cleanup remove the caller from the
room's voice set and broadcast voice-peer-left exactly when the caller was
present; a second leave in a row, a leave for a user never in the set, and
a disconnect following a graceful leave all emit no broadcast. -/
theorem voiceLeave_idempotent :
    (∀ (sock : SocketCtx) (m : VoiceMap) (roomId uid : String),
      sock.data.userId = some uid →
      voiceParticipantsOf (voiceLeave sock m roomId).1 roomId =
        (voiceParticipantsOf m roomId).filter (fun x => x ≠ uid) ∧
      (voiceLeave sock m roomId).2 =
        (if uid ∈ voiceParticipantsOf m roomId then
          [(Target.roomExceptSender roomId, Emit.voicePeerLeft uid)]
        else [])) ∧
    (∀ (sock : SocketCtx) (m : VoiceMap) (roomId uid : String),
      sock.data.userId = some uid →
      sock.data.roomId = some roomId →
      voiceParticipantsOf (voiceDisconnect sock m).1 roomId =
        (voiceParticipantsOf m roomId).filter (fun x => x ≠ uid) ∧
      (voiceDisconnect sock m).2 =
        (if uid ∈ voiceParticipantsOf m roomId then
          [(Target.roomExceptSender roomId, Emit.voicePeerLeft uid)]
        else [])) ∧
    (∀ (sock : SocketCtx) (m : VoiceMap) (roomId uid : String),
      sock.data.userId = some uid →
      uid ∉ voiceParticipantsOf m roomId →
      (voiceLeave sock m roomId).2 = []) ∧
    (∀ (sock : SocketCtx) (m : VoiceMap) (roomId uid : String),
      sock.data.userId = some uid →
      (voiceLeave sock (voiceLeave sock m roomId).1 roomId).2 = []) ∧
    (∀ (sock : SocketCtx) (m : VoiceMap) (roomId uid : String),
      sock.data.userId = some uid →
      sock.data.roomId = some roomId →
      (voiceDisconnect sock (voiceLeave sock m roomId).1).2 = []) := by
  refine ⟨?_, ?_, ?_, ?_, ?_⟩
  · intro sock m roomId uid h
    obtain ⟨he, hs, _⟩ := voiceLeave_chars sock m roomId uid h
    exact ⟨hs, he⟩
  · intro sock m roomId uid h hr
    obtain ⟨he, hs⟩ := voiceDisconnect_chars sock m roomId uid h hr
    exact ⟨hs, he⟩
  · intro sock m roomId uid h hmem
    obtain ⟨he, -, -⟩ := voiceLeave_chars sock m roomId uid h
    rw [he, if_neg hmem]
  · intro sock m roomId uid h
    obtain ⟨he, -, -⟩ := voiceLeave_chars sock (voiceLeave sock m roomId).1 roomId uid h
    rw [he, if_neg ?_]
    obtain ⟨-, hs, -⟩ := voiceLeave_chars sock m roomId uid h
    rw [hs]
    exact not_mem_filter_ne _ _
  · intro sock m roomId uid h hr
    obtain ⟨he, -⟩ := voiceDisconnect_chars sock (voiceLeave sock m roomId).1 roomId uid h hr
    rw [he, if_neg ?_]
    obtain ⟨-, hs, -⟩ := voiceLeave_chars sock m roomId uid h
    rw [hs]
    exact not_mem_filter_ne _ _

/-- Claim C7 witness: the instantiation where `u1` leaves the voice set it is in,
leaves again, disconnects after leaving, and where `u6` leaves a set it was
never in. -/
theorem voiceLeave_idempotent_witness :
    (voiceParticipantsOf (voiceLeave sockU1 [("ROOM01", ["u1", "u2"])] "ROOM01").1 "ROOM01" =
        (voiceParticipantsOf [("ROOM01", ["u1", "u2"])] "ROOM01").filter (fun x => x ≠ "u1") ∧
      (voiceLeave sockU1 [("ROOM01", ["u1", "u2"])] "ROOM01").2 =
        [(Target.roomExceptSender "ROOM01", Emit.voicePeerLeft "u1")]) ∧
    (voiceLeave sockU6 [("ROOM01", ["u1", "u2"])] "ROOM01").2 = [] ∧
    (voiceLeave sockU1 (voiceLeave sockU1 [("ROOM01", ["u1", "u2"])] "ROOM01").1 "ROOM01").2 = [] ∧
    (voiceDisconnect sockU1 (voiceLeave sockU1 [("ROOM01", ["u1", "u2"])] "ROOM01").1).2 = [] := by
  refine ⟨⟨(voiceLeave_idempotent.1 sockU1 [("ROOM01", ["u1", "u2"])] "ROOM01" "u1" rfl).1, ?_⟩,
          voiceLeave_idempotent.2.2.1 sockU6 [("ROOM01", ["u1", "u2"])] "ROOM01" "u6" rfl (by decide),
          voiceLeave_idempotent.2.2.2.1 sockU1 [("ROOM01", ["u1", "u2"])] "ROOM01" "u1" rfl,
          voiceLeave_idempotent.2.2.2.2 sockU1 [("ROOM01", ["u1", "u2"])] "ROOM01" "u1" rfl rfl⟩
  have h := (voiceLeave_idempotent.1 sockU1 [("ROOM01", ["u1", "u2"])] "ROOM01" "u1" rfl).2
  rw [h, if_pos (by decide)]

/-- Claim C9 counterexample: starting from the empty map, `u1` voice-joins room
`ROOM01` and then voice-leaves it; the room key is still present in the map
while its participant set is empty, so the claimed entry-removed-when-empty
lifecycle and the non-empty-set invariant fail on a reachable state. -/
theorem voiceMap_keeps_empty_entry :
    (voiceLeave sockU1 (voiceJoin sockU1 [] "ROOM01").1 "ROOM01").1 = [("ROOM01", [])] ∧
    "ROOM01" ∈ voiceKeys (voiceLeave sockU1 (voiceJoin sockU1 [] "ROOM01").1 "ROOM01").1 ∧
    voiceParticipantsOf (voiceLeave sockU1 (voiceJoin sockU1 [] "ROOM01").1 "ROOM01").1 "ROOM01" = [] := by
  decide

/-- Claim C9 amended: an entry for a room is created on the room's first
voice-join or voice-leave and entries are never removed afterwards: each
handler either keeps the key set unchanged or appends exactly the handled
room key, the disconnect cleanup never changes the key set, and after an
authenticated voice-join or voice-leave the handled room's key is present —
a key's participant set may therefore remain in the map empty. -/
theorem voiceMap_keys_lifecycle :
    (∀ (sock : SocketCtx) (m : VoiceMap) (roomId : String),
      voiceKeys (voiceJoin sock m roomId).1 = voiceKeys m ∨
        voiceKeys (voiceJoin sock m roomId).1 = voiceKeys m ++ [roomId]) ∧
    (∀ (sock : SocketCtx) (m : VoiceMap) (roomId : String),
      voiceKeys (voiceLeave sock m roomId).1 = voiceKeys m ∨
        voiceKeys (voiceLeave sock m roomId).1 = voiceKeys m ++ [roomId]) ∧
    (∀ (sock : SocketCtx) (m : VoiceMap),
      voiceKeys (voiceDisconnect sock m).1 = voiceKeys m) ∧
    (∀ (sock : SocketCtx) (m : VoiceMap) (roomId uid : String),
      sock.data.userId = some uid →
      roomId ∈ voiceKeys (voiceJoin sock m roomId).1 ∧
        roomId ∈ voiceKeys (voiceLeave sock m roomId).1) := by
  refine ⟨?_, ?_, ?_, ?_⟩
  · intro sock m roomId
    cases hu : sock.data.userId with
    | none => left; simp [voiceJoin, hu]
    | some uid =>
      simp only [voiceJoin, hu]
      by_cases hmem : uid ∈ (getOrCreateRoomSet m roomId).1
      · rw [if_pos hmem]
        exact voiceKeys_getOrCreate m roomId
      · rw [if_neg hmem]
        by_cases hlen : (getOrCreateRoomSet m roomId).1.length ≥ 5
        · rw [if_pos hlen]
          exact voiceKeys_getOrCreate m roomId
        · rw [if_neg hlen]
          simp only [voiceKeys_setRoomSet]
          exact voiceKeys_getOrCreate m roomId
  · intro sock m roomId
    cases hu : sock.data.userId with
    | none => left; simp [voiceLeave, hu]
    | some uid =>
      simp only [voiceLeave, hu]
      by_cases hmem : uid ∈ (getOrCreateRoomSet m roomId).1
      · rw [if_pos hmem]
        simp only [voiceKeys_setRoomSet]
        exact voiceKeys_getOrCreate m roomId
      · rw [if_neg hmem]
        exact voiceKeys_getOrCreate m roomId
  · intro sock m
    cases hu : sock.data.roomId with
    | none => simp [voiceDisconnect, hu]
    | some roomId =>
      cases hid : sock.data.userId with
      | none => simp [voiceDisconnect, hu, hid]
      | some uid =>
        cases hg : voiceGet m roomId with
        | none => simp [voiceDisconnect, hu, hid, hg]
        | some ps =>
          by_cases hmem : uid ∈ ps <;>
            simp [voiceDisconnect, hu, hid, hg, hmem, voiceKeys_setRoomSet]
  · intro sock m roomId uid h
    constructor
    · rw [mem_voiceKeys_iff]
      simp only [voiceJoin, h]
      by_cases hmem : uid ∈ (getOrCreateRoomSet m roomId).1
      · rw [if_pos hmem]
        exact getOrCreate_key_isSome m roomId
      · rw [if_neg hmem]
        by_cases hlen : (getOrCreateRoomSet m roomId).1.length ≥ 5
        · rw [if_pos hlen]
          exact getOrCreate_key_isSome m roomId
        · rw [if_neg hlen]
          rw [voiceGet_setRoomSet_self _ _ _ (getOrCreate_key_isSome m roomId)]
          rfl
    · rw [mem_voiceKeys_iff]
      simp only [voiceLeave, h]
      by_cases hmem : uid ∈ (getOrCreateRoomSet m roomId).1
      · rw [if_pos hmem]
        rw [voiceGet_setRoomSet_self _ _ _ (getOrCreate_key_isSome m roomId)]
        rfl
      · rw [if_neg hmem]
        exact getOrCreate_key_isSome m roomId

/-- Claim C9 amended witness: the lifecycle instantiated on the join-then-leave
run of `u1` starting from the empty map. -/
theorem voiceMap_keys_lifecycle_witness :
    (voiceKeys (voiceJoin sockU1 [] "ROOM01").1 = voiceKeys ([] : VoiceMap) ∨
      voiceKeys (voiceJoin sockU1 [] "ROOM01").1 = voiceKeys ([] : VoiceMap) ++ ["ROOM01"]) ∧
    "ROOM01" ∈ voiceKeys (voiceJoin sockU1 [] "ROOM01").1 ∧
    "ROOM01" ∈ voiceKeys (voiceLeave sockU1 [] "ROOM01").1 :=
  ⟨voiceMap_keys_lifecycle.1 sockU1 [] "ROOM01",
   voiceMap_keys_lifecycle.2.2.2 sockU1 [] "ROOM01" "u1" rfl⟩

end WatchWith

namespace WatchWith

/-! ## Helper lemmas about the room store -/

theorem getRoom_deleteRoom_self (store : RoomStore) (roomId : String) :
    getRoom (deleteRoom store roomId) roomId = none := by
  induction store with
  | nil => rfl
  | cons a l ih =>
    by_cases ha : a.1 = roomId
    · simp [deleteRoom, ha, ih]
    · simp [deleteRoom, getRoom, ha, ih]

theorem getRoom_deleteRoom_ne (store : RoomStore) (roomId r : String) (h : r ≠ roomId) :
    getRoom (deleteRoom store roomId) r = getRoom store r := by
  induction store with
  | nil => rfl
  | cons a l ih =>
    have hr' : ¬ roomId = r := fun hh => h hh.symm
    by_cases hb : a.1 = roomId
    · have ha' : ¬ a.1 = r := by rw [hb]; exact hr'
      simp [deleteRoom, getRoom, hb, ha', hr', ih]
    · by_cases ha : a.1 = r <;> simp [deleteRoom, getRoom, hb, ha, h, ih]

theorem getRoom_updateRoom_self (store : RoomStore) (roomId : String) (room : Room)
    (h : (getRoom store roomId).isSome) :
    getRoom (updateRoom store roomId room) roomId = some room := by
  induction store with
  | nil => simp [getRoom] at h
  | cons a l ih =>
    by_cases ha : a.1 = roomId
    · simp [updateRoom, getRoom, ha]
    · simp [updateRoom, getRoom, ha] at h ⊢
      exact ih h

theorem getRoom_updateRoom_ne (store : RoomStore) (roomId r : String) (room : Room)
    (h : r ≠ roomId) :
    getRoom (updateRoom store roomId room) r = getRoom store r := by
  induction store with
  | nil => rfl
  | cons a l ih =>
    have hr' : ¬ roomId = r := fun hh => h hh.symm
    by_cases hb : a.1 = roomId
    · have ha' : ¬ a.1 = r := by rw [hb]; exact hr'
      simp [updateRoom, getRoom, hb, ha', hr', ih]
    · by_cases ha : a.1 = r <;> simp [updateRoom, getRoom, hb, ha, h, ih]

/-- Claim C10: `handleLeaveRoom` is a total silent no-op when the session has no
bound userId, when the room is absent from the store, or when the bound
userId is not among the room's users: the store, the socket and the emitted
effects are all untouched. -/
theorem handleLeaveRoom_noop_on_unmet_preconditions :
    (∀ (sock : SocketCtx) (store : RoomStore) (roomId : String),
      sock.data.userId = none →
      handleLeaveRoom sock store roomId = ⟨store, sock, []⟩) ∧
    (∀ (sock : SocketCtx) (store : RoomStore) (roomId uid : String),
      sock.data.userId = some uid →
      getRoom store roomId = none →
      handleLeaveRoom sock store roomId = ⟨store, sock, []⟩) ∧
    (∀ (sock : SocketCtx) (store : RoomStore) (roomId uid : String) (room : Room),
      sock.data.userId = some uid →
      getRoom store roomId = some room →
      room.users.find? (fun u => u.id = uid) = none →
      handleLeaveRoom sock store roomId = ⟨store, sock, []⟩) := by
  refine ⟨?_, ?_, ?_⟩
  · intro sock store roomId h
    simp [handleLeaveRoom, h]
  · intro sock store roomId uid h hg
    simp [handleLeaveRoom, h, hg]
  · intro sock store roomId uid room h hg hf
    simp [handleLeaveRoom, h, hg, hf]

/-- Claim C10 witness: the three precondition failures instantiated — an unbound
socket, a missing room, and a non-member user. -/
theorem handleLeaveRoom_noop_witness :
    handleLeaveRoom sockFresh storeAB "ROOM01" = ⟨storeAB, sockFresh, []⟩ ∧
    handleLeaveRoom sockU1 [] "ROOM01" = ⟨[], sockU1, []⟩ ∧
    handleLeaveRoom sockU6 storeAB "ROOM01" = ⟨storeAB, sockU6, []⟩ :=
  ⟨handleLeaveRoom_noop_on_unmet_preconditions.1 sockFresh storeAB "ROOM01" rfl,
   handleLeaveRoom_noop_on_unmet_preconditions.2.1 sockU1 [] "ROOM01" "u1" rfl rfl,
   handleLeaveRoom_noop_on_unmet_preconditions.2.2 sockU6 storeAB "ROOM01" "u6" roomAB rfl
     (by decide) (by decide)⟩

/-- Claim C1: leaving a room removes the leaver; when the leaver was a host and
no host remains the room is deleted and the rest of the room is sent the
room-closing room-error; when the room becomes empty it is deleted with no
broadcast; otherwise the trimmed user list is persisted and user-left is
broadcast.  Other rooms are untouched, and a surviving room keeps at least
one host whenever it had one and its user ids are duplicate-free. -/
theorem handleLeaveRoom_spec :
    ∀ (sock : SocketCtx) (store : RoomStore) (roomId uid : String) (room : Room)
      (leavingUser : User),
      sock.data.userId = some uid →
      getRoom store roomId = some room →
      room.users.find? (fun u => u.id = uid) = some leavingUser →
      ((leavingUser.isHost = true ∧
          (room.users.filter (fun u => u.id ≠ uid)).filter (fun u => u.isHost) = [] →
        getRoom (handleLeaveRoom sock store roomId).store roomId = none ∧
        (handleLeaveRoom sock store roomId).effects =
          [(Target.roomExceptSender roomId,
            Emit.roomError "All hosts have left the room. Redirecting to home page...")]) ∧
      (¬(leavingUser.isHost = true ∧
          (room.users.filter (fun u => u.id ≠ uid)).filter (fun u => u.isHost) = []) →
        room.users.filter (fun u => u.id ≠ uid) = [] →
        getRoom (handleLeaveRoom sock store roomId).store roomId = none ∧
        (handleLeaveRoom sock store roomId).effects = []) ∧
      (¬(leavingUser.isHost = true ∧
          (room.users.filter (fun u => u.id ≠ uid)).filter (fun u => u.isHost) = []) →
        room.users.filter (fun u => u.id ≠ uid) ≠ [] →
        getRoom (handleLeaveRoom sock store roomId).store roomId =
          some { room with users := room.users.filter (fun u => u.id ≠ uid) } ∧
        (handleLeaveRoom sock store roomId).effects =
          [(Target.roomExceptSender roomId, Emit.userLeft uid)]) ∧
      (∀ r, r ≠ roomId →
        getRoom (handleLeaveRoom sock store roomId).store r = getRoom store r) ∧
      ((room.users.map User.id).Nodup →
        (∃ u ∈ room.users, u.isHost = true) →
        ∀ room', getRoom (handleLeaveRoom sock store roomId).store roomId = some room' →
          ∃ u ∈ room'.users, u.isHost = true)) := by
  intro sock store roomId uid room leavingUser h hg hf
  have hidL : leavingUser.id = uid := by
    have := List.find?_some hf
    simpa using this
  have hmemL : leavingUser ∈ room.users := List.mem_of_find?_eq_some hf
  by_cases hc : leavingUser.isHost = true ∧
      (room.users.filter (fun u => u.id ≠ uid)).filter (fun u => u.isHost) = []
  · have hstep : handleLeaveRoom sock store roomId =
        ⟨deleteRoom store roomId, leaveGroup sock roomId,
         [(Target.roomExceptSender roomId,
           Emit.roomError "All hosts have left the room. Redirecting to home page...")]⟩ := by
      simp only [handleLeaveRoom, h, hg, hf]
      rw [if_pos hc]
    refine ⟨fun _ => ⟨?_, ?_⟩, fun hnc => absurd hc hnc, fun hnc => absurd hc hnc, ?_, ?_⟩
    · rw [hstep]; exact getRoom_deleteRoom_self store roomId
    · rw [hstep]
    · intro r hr
      rw [hstep]
      exact getRoom_deleteRoom_ne store roomId r hr
    · intro _ _ room' habs
      rw [hstep] at habs
      rw [getRoom_deleteRoom_self store roomId] at habs
      exact absurd habs (by simp)
  · by_cases hU : room.users.filter (fun u => u.id ≠ uid) = []
    · have hstep : handleLeaveRoom sock store roomId =
          ⟨deleteRoom store roomId, leaveGroup sock roomId, []⟩ := by
        simp only [handleLeaveRoom, h, hg, hf]
        rw [if_neg hc, if_pos hU]
      refine ⟨fun hcc => absurd hcc hc, fun _ _ => ⟨?_, ?_⟩, fun _ hUU => absurd hU hUU, ?_, ?_⟩
      · rw [hstep]; exact getRoom_deleteRoom_self store roomId
      · rw [hstep]
      · intro r hr
        rw [hstep]
        exact getRoom_deleteRoom_ne store roomId r hr
      · intro _ _ room' habs
        rw [hstep] at habs
        rw [getRoom_deleteRoom_self store roomId] at habs
        exact absurd habs (by simp)
    · have hstep : handleLeaveRoom sock store roomId =
          ⟨updateRoom store roomId { room with users := room.users.filter (fun u => u.id ≠ uid) },
           leaveGroup sock roomId,
           [(Target.roomExceptSender roomId, Emit.userLeft uid)]⟩ := by
        simp only [handleLeaveRoom, h, hg, hf]
        rw [if_neg hc, if_neg hU]
      have hget : getRoom (handleLeaveRoom sock store roomId).store roomId =
          some { room with users := room.users.filter (fun u => u.id ≠ uid) } := by
        rw [hstep]
        exact getRoom_updateRoom_self store roomId _ (by rw [hg]; rfl)
      refine ⟨fun hcc => absurd hcc hc, fun _ hUU => absurd hUU hU, fun _ _ => ⟨hget, ?_⟩, ?_, ?_⟩
      · rw [hstep]
      · intro r hr
        rw [hstep]
        exact getRoom_updateRoom_ne store roomId r _ hr
      · intro hnd hhost room' hr'
        rw [hget] at hr'
        obtain rfl : { room with users := room.users.filter (fun u => u.id ≠ uid) } = room' :=
          Option.some.inj hr'
        by_cases hHostL : leavingUser.isHost = true
        · have hH : (room.users.filter (fun u => u.id ≠ uid)).filter (fun u => u.isHost) ≠ [] :=
            fun hnil => hc ⟨hHostL, hnil⟩
          rcases List.exists_mem_of_ne_nil _ hH with ⟨u, hu⟩
          have hu1 := List.mem_filter.mp hu
          exact ⟨u, hu1.1, hu1.2⟩
        · obtain ⟨hst, hmem, hhost1⟩ := hhost
          have hne : hst.id ≠ uid := by
            intro he
            have heq : hst = leavingUser :=
              List.inj_on_of_nodup_map hnd hmem hmemL (by rw [he, hidL])
            rw [heq] at hhost1
            exact hHostL hhost1
          exact ⟨hst, List.mem_filter.mpr ⟨hmem, by simpa using hne⟩, hhost1⟩

end WatchWith

namespace WatchWith

/-- Claim C1 witness: sole host Alice leaves `roomAB`; the room is deleted and
the rest of the room receives the room-closing error. -/
theorem handleLeaveRoom_spec_witness :
    getRoom (handleLeaveRoom sockU1 storeAB "ROOM01").store "ROOM01" = none ∧
    (handleLeaveRoom sockU1 storeAB "ROOM01").effects =
      [(Target.roomExceptSender "ROOM01",
        Emit.roomError "All hosts have left the room. Redirecting to home page...")] :=
  (handleLeaveRoom_spec sockU1 storeAB "ROOM01" "u1" roomAB userAlice rfl (by decide)
    (by decide)).1 (by decide)

/-- Claim C5: a play-video, pause-video or seek-video request whose sender does
not resolve to a host of the room produces no broadcast and leaves the
store untouched. -/
theorem videoControl_host_only :
    ∀ (sock : SocketCtx) (store : RoomStore) (roomId : String) (t : Rat) (now : Nat),
      senderIsHostOf sock store roomId = false →
      playVideo sock store roomId t now = (store, []) ∧
      pauseVideo sock store roomId t now = (store, []) ∧
      seekVideo sock store roomId t now = (store, []) := by
  intro sock store roomId t now h
  cases hu : sock.data.userId with
  | none => simp [playVideo, pauseVideo, seekVideo, hu]
  | some uid =>
    cases hg : getRoom store roomId with
    | none => simp [playVideo, pauseVideo, seekVideo, hu, hg]
    | some room =>
      cases hf : room.users.find? (fun u => u.id = uid) with
      | none => simp [playVideo, pauseVideo, seekVideo, hu, hg, hf]
      | some user =>
        have hh : user.isHost = false := by
          simpa [senderIsHostOf, hu, hg, hf] using h
        simp [playVideo, pauseVideo, seekVideo, hu, hg, hf, hh]

/-- Claim C5 witness: guest Bob's play, pause and seek requests on `roomAB` emit
nothing. -/
theorem videoControl_host_only_witness :
    playVideo sockU2 storeAB "ROOM01" 5 7 = (storeAB, []) ∧
    pauseVideo sockU2 storeAB "ROOM01" 5 7 = (storeAB, []) ∧
    seekVideo sockU2 storeAB "ROOM01" 5 7 = (storeAB, []) :=
  videoControl_host_only sockU2 storeAB "ROOM01" 5 7 (by decide)

/-- Claim C3 counterexample: host Alice rejoins `roomAB` from a fresh connection
with the matching token, while the fresh user id `u9` is available; the
join succeeds but the connection is bound to the EXISTING id `u1`, the
store is completely unchanged, and `room.hostId` still reads `u1` — no new
userId is issued and `hostId` is not updated, contrary to the claim. -/
theorem joinRoom_host_reattach_keeps_id :
    (joinRoom sockFresh storeAB
        { roomId := "ROOM01", userName := "Alice", hostToken := some "tok-1" } "u9" 5).sock.data.userId
      = some "u1" ∧
    (joinRoom sockFresh storeAB
        { roomId := "ROOM01", userName := "Alice", hostToken := some "tok-1" } "u9" 5).store
      = storeAB ∧
    (getRoom (joinRoom sockFresh storeAB
        { roomId := "ROOM01", userName := "Alice", hostToken := some "tok-1" } "u9" 5).store
        "ROOM01").map Room.hostId = some "u1" ∧
    ("u1" : String) ≠ "u9" := by
  refine ⟨by decide, by decide, by decide, by decide⟩

/-- Claim C3 amended: when a user of the requested name exists in the room and is
a host, a join from a connection not already in the room's group succeeds
if and only if the supplied hostToken equals room.hostToken; on success the
caller is re-attached to that host identity by binding the EXISTING userId
to the new connection, with the store — in particular `room.hostId` and
`room.users` — unchanged, so no duplicate host slot sharing the name is
created. -/
theorem joinRoom_host_reattach :
    ∀ (sock : SocketCtx) (store : RoomStore) (d : JoinRoomData) (newUserId : String)
      (now : Nat) (room : Room) (existingUser : User),
      d.roomId ∉ sock.rooms →
      getRoom store d.roomId = some room →
      room.users.find? (fun u => u.name = d.userName) = some existingUser →
      existingUser.isHost = true →
      ((d.hostToken ≠ some room.hostToken →
        joinRoom sock store d newUserId now =
          ⟨store, sock,
           [(Target.sender,
             Emit.roomError "Invalid host credentials. Only the room creator can join as host.")]⟩) ∧
      (d.hostToken = some room.hostToken →
        joinRoom sock store d newUserId now =
          ⟨store, bindAndJoin sock existingUser.id existingUser.name d.roomId,
           [(Target.sender, Emit.roomJoined room existingUser)]⟩)) := by
  intro sock store d newUserId now room existingUser hng hg hf hh
  constructor
  · intro htok
    simp only [joinRoom, if_neg hng, hg, hf, if_pos hh]
    rw [if_pos (Or.inr htok)]
  · intro htok
    have hno : ¬ (d.hostToken = none ∨ d.hostToken ≠ some room.hostToken) := by
      rw [htok]
      simp
    simp only [joinRoom, if_neg hng, hg, hf, if_pos hh]
    rw [if_neg hno]

/-- Claim C3 amended witness: Alice's reattach instantiated with a wrong token
and with the right one. -/
theorem joinRoom_host_reattach_witness :
    joinRoom sockFresh storeAB
        { roomId := "ROOM01", userName := "Alice", hostToken := some "bad" } "u9" 5 =
      ⟨storeAB, sockFresh,
       [(Target.sender,
         Emit.roomError "Invalid host credentials. Only the room creator can join as host.")]⟩ ∧
    joinRoom sockFresh storeAB
        { roomId := "ROOM01", userName := "Alice", hostToken := some "tok-1" } "u9" 5 =
      ⟨storeAB, bindAndJoin sockFresh "u1" "Alice" "ROOM01",
       [(Target.sender, Emit.roomJoined roomAB userAlice)]⟩ :=
  ⟨(joinRoom_host_reattach sockFresh storeAB
      { roomId := "ROOM01", userName := "Alice", hostToken := some "bad" } "u9" 5 roomAB
      userAlice (by decide) (by decide) (by decide) (by decide)).1 (by decide),
   (joinRoom_host_reattach sockFresh storeAB
      { roomId := "ROOM01", userName := "Alice", hostToken := some "tok-1" } "u9" 5 roomAB
      userAlice (by decide) (by decide) (by decide) (by decide)).2 rfl⟩

end WatchWith

namespace WatchWith

/-- Claim C8 counterexample: Bob's connection, already in room `ROOM01`, sends
join-room with the name `Bob`, which is taken by the non-host member Bob;
the duplicate-socket guard replies with a room-joined success, so no
room-error is received, contrary to the claim as stated for every
join-room. -/
theorem joinRoom_duplicate_socket_success :
    joinRoom sockU2 storeAB { roomId := "ROOM01", userName := "Bob", hostToken := none } "u9" 5 =
      ⟨storeAB, sockU2, [(Target.sender, Emit.roomJoined roomAB userBob)]⟩ := by
  decide

/-- Claim C8 amended: for a join-room on an existing room from a connection not
already in the room's broadcast group, if the requested name is taken by a
non-host member, or the requested name equals room.hostName while the
supplied hostToken does not match room.hostToken, then the caller receives
a room-error and nothing is mutated: the store and the caller's session are
unchanged and no broadcast reaches the rest of the room. -/
theorem joinRoom_rejects_without_mutation :
    ∀ (sock : SocketCtx) (store : RoomStore) (d : JoinRoomData) (newUserId : String)
      (now : Nat) (room : Room),
      d.roomId ∉ sock.rooms →
      getRoom store d.roomId = some room →
      ((∀ existingUser, room.users.find? (fun u => u.name = d.userName) = some existingUser →
          existingUser.isHost = false →
          joinRoom sock store d newUserId now =
            ⟨store, sock,
             [(Target.sender,
               Emit.roomError ("The name " ++ d.userName ++
                 " is already taken in this room. Please choose a different name."))]⟩) ∧
       (d.userName = room.hostName → d.hostToken ≠ some room.hostToken →
          ∃ msg, joinRoom sock store d newUserId now =
            ⟨store, sock, [(Target.sender, Emit.roomError msg)]⟩)) := by
  intro sock store d newUserId now room hng hg
  constructor
  · intro existingUser hf hh
    simp only [joinRoom, if_neg hng, hg, hf]
    rw [if_neg (by simp [hh])]
  · intro hname htok
    cases hf : room.users.find? (fun u => u.name = d.userName) with
    | some existingUser =>
      cases hh : existingUser.isHost with
      | true =>
        refine ⟨"Invalid host credentials. Only the room creator can join as host.", ?_⟩
        simp only [joinRoom, if_neg hng, hg, hf]
        rw [if_pos (by simp [hh]), if_pos (Or.inr htok)]
      | false =>
        refine ⟨"The name " ++ d.userName ++
          " is already taken in this room. Please choose a different name.", ?_⟩
        simp only [joinRoom, if_neg hng, hg, hf]
        rw [if_neg (by simp [hh])]
    | none =>
      refine ⟨"Invalid host credentials. Only the room creator can join as host.", ?_⟩
      have hclaim : (decide (room.hostName = d.userName)) = true := by
        simp [hname.symm]
      simp only [joinRoom, if_neg hng, hg, hf]
      rw [if_pos (by simpa using hclaim)]
      rw [if_neg (fun hc => htok hc.2)]

/-- Claim C8 amended witness: the guest-name conflict and the reserved-host-name
token mismatch instantiated on `roomAB` from a fresh connection. -/
theorem joinRoom_rejects_without_mutation_witness :
    joinRoom sockFresh storeAB { roomId := "ROOM01", userName := "Bob", hostToken := none } "u9" 5 =
      ⟨storeAB, sockFresh,
       [(Target.sender,
         Emit.roomError "The name Bob is already taken in this room. Please choose a different name.")]⟩ ∧
    (∃ msg, joinRoom sockFresh storeAB
        { roomId := "ROOM01", userName := "Alice", hostToken := some "bad" } "u9" 5 =
      ⟨storeAB, sockFresh, [(Target.sender, Emit.roomError msg)]⟩) := by
  refine ⟨?_, ?_⟩
  · have h := (joinRoom_rejects_without_mutation sockFresh storeAB
      { roomId := "ROOM01", userName := "Bob", hostToken := none } "u9" 5 roomAB
      (by decide) (by decide)).1 userBob (by decide) (by decide)
    simpa using h
  · exact (joinRoom_rejects_without_mutation sockFresh storeAB
      { roomId := "ROOM01", userName := "Alice", hostToken := some "bad" } "u9" 5 roomAB
      (by decide) (by decide)).2 (by decide) (by decide)

end WatchWith
